import Mathlib

/-
Verification of the `x_make_progress_board_x` progress-board widget
(`src/progress_board_widget.py`).

The embedding below is a shallow model of the widget's pure logic:

* Python strings are Lean `String`s; `str.lower` / `str.strip` are modelled
  for the ASCII range (`pyLower`, `pyStrip`), mirroring CPython's ASCII fast
  path, which is the range every status constant in the source lives in.
* Qt checklist items are modelled by their two mutated attributes
  (`setText` / `setCheckState`), and `Qt.CheckState` by the inductive
  `CheckState`.
* The widget's mutable fields (`_stage_definitions`, `_items`,
  `_repo_index_cache`, `_status_label`, `_completion_triggered`, the poll
  timer, and the `board_completed` signal) become the record `BoardState`;
  `timer.stop()` and `board_completed.emit()` are counted so that
  "exactly one stop / one emit" is expressible.
* Python dicts that the code iterates in insertion order are modelled as
  insertion-ordered association lists (`alookup` / `dictInsert` /
  `dictRemove` / `setItem`).
* The filesystem is a parameter `FS`: `FS.stat` models `_safe_stat`
  (`None` on `OSError`) and `FS.read` models `_read_json_payload`
  (`None` on `OSError` / `JSONDecodeError`), returning the parsed
  top-level JSON object's key/value pairs on success.
* JSON values are the inductive `JValue`; Python truthiness and `str()`
  of JSON values are `JValue.truthy` and `JValue.pyStr` (string escaping
  inside `repr` of containers is not modelled; it is unreachable for every
  property proved here).
-/

namespace ProgressBoard

/-- ASCII model of Python `str.lower` on a single character: maps A-Z to
a-z and leaves everything else unchanged. -/
def lowerChar (c : Char) : Char :=
  if 65 <= c.toNat && c.toNat <= 90 then Char.ofNat (c.toNat + 32) else c

/-- ASCII model of Python `str.lower`. -/
def pyLower (s : String) : String := String.mk (s.data.map lowerChar)

/-- Python `str.isspace` characters in the ASCII range (the whitespace set
stripped by `str.strip()`). -/
def isPySpace (c : Char) : Bool :=
  c == ' ' || c == '\t' || c == '\n' || c == '\r' || c == '\x0b' || c == '\x0c'

/-- Model of Python `str.strip()`: drops leading and trailing whitespace. -/
def pyStrip (s : String) : String :=
  String.mk (((s.data.dropWhile isPySpace).reverse.dropWhile isPySpace).reverse)

/-- `Qt.CheckState`: the three-valued completion marker of a checklist
item. `PartiallyChecked` is Qt's partial/indeterminate middle state. -/
inductive CheckState where
  | Unchecked : CheckState
  | PartiallyChecked : CheckState
  | Checked : CheckState
deriving DecidableEq, Repr

/-- `_DONE_STATUSES = {"completed", "attention", "blocked"}` (line 36). -/
def DONE_STATUSES : List String := ["completed", "attention", "blocked"]

/-- `ProgressBoardWidget._check_state_for_status` (lines 305-314). -/
def _check_state_for_status (status : String) : CheckState :=
  let normalized := pyStrip (pyLower status)
  if normalized ∈ DONE_STATUSES then CheckState.Checked
  else if normalized = "running" then CheckState.PartiallyChecked
  else if normalized = "pending" then CheckState.Unchecked
  else CheckState.PartiallyChecked

/-- The loop body of `_message_suffix`: first element of the (already
reversed) message list whose stripped text is non-empty, returned
stripped. -/
def firstNonBlank : List String → Option String
  | [] => none
  | m :: rest =>
    let text := pyStrip m
    if text = "" then firstNonBlank rest else some text

/-- `ProgressBoardWidget._message_suffix` (lines 297-303). -/
def _message_suffix (messages : List String) : String :=
  match firstNonBlank messages.reverse with
  | some text => " (" ++ text ++ ")"
  | none => ""

/-- A checklist item, reduced to the two attributes the widget mutates
(`setText` / `setCheckState`). -/
structure Item where
  text : String
  checkState : CheckState
deriving DecidableEq, Repr

/-- Python `status or "pending"` for a status that is either a string or
`None` (`none` also covers a missing attribute, which `getattr` defaults
identically). -/
def status_or_pending : Option String → String
  | none => "pending"
  | some s => if s = "" then "pending" else s

/-- `ProgressBoardWidget._apply_stage_state` (lines 207-220): returns the
updated item together with the `normalized_status in _DONE_STATUSES`
result. -/
def _apply_stage_state (title : String) (status : Option String)
    (messages : List String) : Item × Bool :=
  let status_text := status_or_pending status
  let message_suffix := _message_suffix messages
  let item : Item :=
    { text := title ++ " - " ++ status_text ++ message_suffix,
      checkState := _check_state_for_status (pyLower status_text) }
  (item, decide (pyLower status_text ∈ DONE_STATUSES))

/-- JSON values, as produced by `json.loads`. -/
inductive JValue where
  | null : JValue
  | jbool : Bool → JValue
  | jnum : Int → JValue
  | jstr : String → JValue
  | jlist : List JValue → JValue
  | jobj : List (String × JValue) → JValue

/-- Python truthiness of a JSON value. -/
def JValue.truthy : JValue → Bool
  | .null => false
  | .jbool b => b
  | .jnum n => n != 0
  | .jstr s => s != ""
  | .jlist xs => !xs.isEmpty
  | .jobj kvs => !kvs.isEmpty

/-- Python `x or y` on JSON values: `x` when truthy, else `y`. -/
def pyOr (a b : JValue) : JValue := if a.truthy then a else b

/-- A single-quote character, written by code point to keep the source
free of quote literals. -/
def squoteStr : String := String.singleton (Char.ofNat 39)

/-- Python `repr` of a string (escaping of embedded quotes is not
modelled). -/
def pyQuote (s : String) : String := squoteStr ++ s ++ squoteStr

def lbraceStr : String := String.singleton (Char.ofNat 123)

def rbraceStr : String := String.singleton (Char.ofNat 125)

/-- Python `repr` of a JSON value (used by `str()` inside containers). -/
def pyRepr : JValue → String
  | .null => "None"
  | .jbool b => if b then "True" else "False"
  | .jnum n => toString n
  | .jstr s => pyQuote s
  | .jlist xs =>
      "[" ++ String.intercalate ", " (xs.attach.map (fun x => pyRepr x.1)) ++ "]"
  | .jobj kvs =>
      lbraceStr ++
        String.intercalate ", "
          (kvs.attach.map (fun kv => pyQuote kv.1.1 ++ ": " ++ pyRepr kv.1.2)) ++
      rbraceStr
decreasing_by
  · have h1 := List.sizeOf_lt_of_mem x.2
    simp only [JValue.jlist.sizeOf_spec]
    omega
  · have h1 := List.sizeOf_lt_of_mem kv.2
    have h2 : sizeOf kv.1.2 < sizeOf kv.1 := by
      obtain ⟨⟨a, b⟩, hm⟩ := kv
      simp
    simp only [JValue.jobj.sizeOf_spec]
    omega

/-- Python `str()` of a JSON value: identity on strings, `repr`
otherwise (they coincide for every non-string JSON value). -/
def JValue.pyStr : JValue → String
  | .jstr s => s
  | .null => pyRepr .null
  | .jbool b => pyRepr (.jbool b)
  | .jnum n => pyRepr (.jnum n)
  | .jlist xs => pyRepr (.jlist xs)
  | .jobj kvs => pyRepr (.jobj kvs)

/-- Lookup in an insertion-ordered association list (Python `dict.get`). -/
def alookup {α : Type} : List (String × α) → String → Option α
  | [], _ => none
  | p :: rest, k => if p.1 = k then some p.2 else alookup rest k

/-- Python `dict[k] = v`: overwrite in place when the key exists, else
append (dict iteration order is insertion order). -/
def dictInsert {α : Type} (l : List (String × α)) (k : String) (v : α) :
    List (String × α) :=
  if (alookup l k).isSome then l.map (fun p => if p.1 = k then (k, v) else p)
  else l ++ [(k, v)]

/-- Python `dict.pop(k, None)`. -/
def dictRemove {α : Type} (l : List (String × α)) (k : String) :
    List (String × α) :=
  l.filter (fun p => p.1 != k)

/-- In-place mutation of the item stored under a key (the Qt item object
is shared, so `setText`/`setCheckState` update the mapping's value). -/
def setItem (l : List (String × Item)) (k : String) (v : Item) :
    List (String × Item) :=
  l.map (fun p => if p.1 = k then (k, v) else p)

/-- `entry.get(k)` on a parsed JSON object: `JValue.null` doubles as the
`None` returned for a missing key. -/
def jGet (kvs : List (String × JValue)) (k : String) : JValue :=
  match alookup kvs k with
  | some v => v
  | none => JValue.null

/-- A normalized repo-index entry as built by `_normalize_repo_entry`. -/
structure RepoEntry where
  repo_id : String
  display_name : String
  status : String
  updated_at : String
  messages : List String
  detail_path : Option String
deriving DecidableEq, Repr

/-- `ProgressBoardWidget._normalized_messages` (lines 316-324). -/
def _normalized_messages : JValue → List String
  | .jlist xs =>
      xs.filterMap (fun m =>
        let t := pyStrip m.pyStr
        if t = "" then none else some t)
  | .jstr s =>
      let text := pyStrip s
      if text = "" then [] else [text]
  | _ => []

/-- Model of `str((Path(entries_dir) / detail_path).resolve())`: the
detail path joined under the entries directory. Pathlib's handling of
absolute `detail_path` values and `..` segments is abstracted into the
plain join. -/
def resolveUnder (entries_dir p : String) : String := entries_dir ++ "/" ++ p

/-- Model of `pathlib.Path.parent` for the relative multi-component paths
the widget handles: drop the last path component (`"."` when there is
none). -/
def parentDir (p : String) : String :=
  let parts := (p.splitOn "/").dropLast
  if parts.isEmpty then "." else String.intercalate "/" parts

/-- `ProgressBoardWidget._normalize_repo_entry` (lines 326-349). -/
def _normalize_repo_entry (entry : JValue) (entries_dir : String) :
    Option RepoEntry :=
  match entry with
  | .jobj kvs =>
    let repo_id := (pyOr (jGet kvs "repo_id") (.jstr "")).pyStr
    let display :=
      (pyOr (pyOr (jGet kvs "display_name") (.jstr repo_id)) (.jstr "<repo>")).pyStr
    let status := (pyOr (jGet kvs "status") (.jstr "pending")).pyStr
    let updated_at := (pyOr (jGet kvs "updated_at") (.jstr "")).pyStr
    let message_preview := _normalized_messages (jGet kvs "message_preview")
    let detail_path : Option String :=
      match jGet kvs "detail_path" with
      | .jstr s => if s = "" then none else some (resolveUnder entries_dir s)
      | _ => none
    some ⟨repo_id, display, status, updated_at, message_preview, detail_path⟩
  | _ => none

/-- `ProgressBoardWidget._normalize_repo_entries` (lines 351-362). -/
def _normalize_repo_entries (entries_payload : JValue) (entries_dir : String) :
    List RepoEntry :=
  match entries_payload with
  | .jlist xs => xs.filterMap (fun e => _normalize_repo_entry e entries_dir)
  | _ => []

/-- `os.stat_result`, reduced to the one field the widget reads. -/
structure FileStat where
  st_mtime : Nat
deriving DecidableEq, Repr

/-- The filesystem as seen by the widget: `stat` models `_safe_stat`
(lines 364-369, `none` on `OSError`) and `read` models
`_read_json_payload` (lines 371-376, `none` on `OSError` or
`JSONDecodeError`, otherwise the parsed top-level JSON object). -/
structure FS where
  stat : String → Option FileStat
  read : String → Option (List (String × JValue))

/-- A `_repo_index_cache` value: `{"path": ..., "mtime": ..., "entries": ...}`
(lines 399-403). -/
structure CacheEntry where
  path : String
  mtime : Nat
  entries : List RepoEntry
deriving DecidableEq, Repr

/-- `entries_dir = Path(str(payload.get("entries_dir") or index_path.parent))`
(line 397). -/
def entriesDirFor (payload : List (String × JValue)) (index_path : String) :
    String :=
  (pyOr (jGet payload "entries_dir") (.jstr (parentDir index_path))).pyStr

/-- The fall-through tail of `_load_repo_index_payload` (lines 394-403):
re-read the index file, parse it, and normalize the entries. -/
def _read_and_normalize (fs : FS) (index_path : String) (st : FileStat) :
    Option CacheEntry :=
  match fs.read index_path with
  | none => none
  | some payload =>
    let entries_dir := entriesDirFor payload index_path
    let entries := _normalize_repo_entries (jGet payload "entries") entries_dir
    some ⟨index_path, st.st_mtime, entries⟩

/-- `ProgressBoardWidget._load_repo_index_payload` (lines 378-403). The
`metadata_index_path` argument is `metadata.get("repo_progress_index_path")`
restricted to the string/absent values the orchestrator contract uses;
`none` covers a missing key and the other falsy values rejected by
`if not index_path_obj`. -/
def _load_repo_index_payload (fs : FS) (cache : List (String × CacheEntry))
    (stage_id : String) (metadata_index_path : Option String) :
    Option CacheEntry :=
  match metadata_index_path with
  | none => none
  | some index_path =>
    if index_path = "" then none
    else
      match fs.stat index_path with
      | none => none
      | some st =>
        match alookup cache stage_id with
        | some cached =>
          if cached.mtime = st.st_mtime then some cached
          else _read_and_normalize fs index_path st
        | none => _read_and_normalize fs index_path st

/-- `ProgressBoardWidget._prune_stale_repo_cache` (lines 405-412): drop
every cached stage id not in the observed set. -/
def _prune_stale_repo_cache (cache : List (String × CacheEntry))
    (observed_ids : List String) : List (String × CacheEntry) :=
  cache.filter (fun p => observed_ids.contains p.1)

/-- A stage object from the snapshot, reduced to the attributes the widget
reads. `none` in `stage_id` / `title` / `status` models a missing
attribute (and for `status` also an attribute holding `None`, which the
code treats identically through `or "pending"`).
`repo_progress_index_path` is `getattr(stage, "metadata", {})` followed by
`metadata.get("repo_progress_index_path")`, `none` covering an absent or
falsy-non-string value. -/
structure Stage where
  stage_id : Option String
  title : Option String
  status : Option String
  messages : List String
  repo_progress_index_path : Option String
deriving DecidableEq, Repr

/-- The loop body of lines 235-242 of `_refresh_stage_repo_details`: a
`None` load clears the stage's cache entry, a successful load stores it. -/
def refreshStep (fs : FS) (c : List (String × CacheEntry))
    (p : String × Stage) : List (String × CacheEntry) :=
  match _load_repo_index_payload fs c p.1 p.2.repo_progress_index_path with
  | none => dictRemove c p.1
  | some entry => dictInsert c p.1 entry

/-- `ProgressBoardWidget._refresh_stage_repo_details` (lines 233-244). -/
def _refresh_stage_repo_details (fs : FS) (cache : List (String × CacheEntry))
    (stages : List (String × Stage)) : List (String × CacheEntry) :=
  _prune_stale_repo_cache (stages.foldl (refreshStep fs) cache)
    (stages.map Prod.fst)

/-- The widget's mutable state. The Qt timer and the `board_completed`
signal are modelled by a running flag plus counters for `timer.stop()`
calls and signal emissions; the detail table and the selection are pure
renderings of this state (`_update_detail_view`) and are not modelled. -/
structure BoardState where
  stage_definitions : List (String × String)
  items : List (String × Item)
  repo_index_cache : List (String × CacheEntry)
  status_label : String
  completion_triggered : Bool
  timer_active : Bool
  board_completed_emits : Nat
  timer_stops : Nat
deriving DecidableEq, Repr

/-- `__init__` together with `_build_ui` (lines 56-152): one checklist row
per stage definition, titled `"{title} - pending"` and unchecked. -/
def initialState (stage_definitions : List (String × String)) : BoardState :=
  { stage_definitions := stage_definitions,
    items := stage_definitions.foldl
      (fun m d => dictInsert m d.1 ⟨d.2 ++ " - pending", CheckState.Unchecked⟩)
      [],
    repo_index_cache := [],
    status_label := "Initializing orchestration tooling...",
    completion_triggered := false,
    timer_active := true,
    board_completed_emits := 0,
    timer_stops := 0 }

/-- Lines 167-171 of `_update_from_snapshot`: rebuild the stage dict keyed
by `getattr(stage, "stage_id", maybe_id)`. -/
def buildStagesDict (raw_stages : List (String × Stage)) :
    List (String × Stage) :=
  raw_stages.foldl (fun acc p => dictInsert acc (p.2.stage_id.getD p.1) p.2) []

/-- The loop body of lines 173-183 of `_update_from_snapshot`: create a
checklist row for a stage id not yet tracked and append it to the
definitions. -/
def mergeStep (st : BoardState) (p : String × Stage) : BoardState :=
  if (alookup st.items p.1).isSome then st
  else
    { st with
      items := st.items ++ [(p.1, ⟨"", CheckState.Unchecked⟩)],
      stage_definitions := st.stage_definitions ++ [(p.1, p.2.title.getD p.1)] }

/-- Lines 173-183 of `_update_from_snapshot`. -/
def mergeNewStages (s : BoardState) (stages : List (String × Stage)) :
    BoardState :=
  stages.foldl mergeStep s

/-- `status = getattr(stage, "status", "pending")` (line 191), where a
stage id absent from the dict makes `stage` `None` and `getattr` return
the default. -/
def stageStatus (stages : List (String × Stage)) (stage_id : String) :
    Option String :=
  match alookup stages stage_id with
  | none => some "pending"
  | some stg => stg.status

/-- `messages = getattr(stage, "messages", ())` (line 192). -/
def stageMessages (stages : List (String × Stage)) (stage_id : String) :
    List String :=
  match alookup stages stage_id with
  | none => []
  | some stg => stg.messages

/-- The loop body of lines 186-194 of `_update_from_snapshot`: skip a
definition without an item, otherwise apply the stage state and fold the
result into `all_done`. -/
def applyStep (stages : List (String × Stage)) (acc : BoardState × Bool)
    (d : String × String) : BoardState × Bool :=
  match alookup acc.1.items d.1 with
  | none => acc
  | some _ =>
    let r := _apply_stage_state d.2 (stageStatus stages d.1)
      (stageMessages stages d.1)
    ({ acc.1 with items := setItem acc.1.items d.1 r.1 }, acc.2 && r.2)

/-- Lines 185-194 of `_update_from_snapshot`: apply every stage state and
accumulate the `all_done` flag. -/
def applyAll (s : BoardState) (stages : List (String × Stage)) :
    BoardState × Bool :=
  s.stage_definitions.foldl (applyStep stages) (s, true)

/-- `ProgressBoardWidget._update_from_snapshot` (lines 166-205). -/
def _update_from_snapshot (fs : FS) (s : BoardState)
    (raw_stages : List (String × Stage)) : BoardState :=
  let stages := buildStagesDict raw_stages
  let s1 := mergeNewStages s stages
  let done := applyAll s1 stages
  let s3 := { done.1 with
    repo_index_cache :=
      _refresh_stage_repo_details fs done.1.repo_index_cache stages }
  if stages ≠ [] ∧ s3.completion_triggered = false then
    if done.2 then
      { s3 with
        status_label := "All stages reported. Waiting for tooling shutdown..." }
    else { s3 with status_label := "Tracking orchestration stages..." }
  else s3

/-- `ProgressBoardWidget._handle_completion` (lines 286-291). -/
def _handle_completion (s : BoardState) : BoardState :=
  if s.completion_triggered then s
  else
    { s with
      completion_triggered := true,
      timer_active := false,
      timer_stops := s.timer_stops + 1,
      board_completed_emits := s.board_completed_emits + 1 }

/-- `ProgressBoardWidget._refresh_snapshot` (lines 154-164): one timer
tick. `snapshot` is the `load_progress_snapshot` result (`none` when the
file is missing or unparseable) and `worker_done` the external event
flag. -/
def _refresh_snapshot (fs : FS) (snapshot : Option (List (String × Stage)))
    (worker_done : Bool) (s : BoardState) : BoardState :=
  match snapshot with
  | none =>
    if s.completion_triggered = false then
      { s with status_label := "Waiting for progress snapshot feed..." }
    else s
  | some raw =>
    let s1 := _update_from_snapshot fs s raw
    if worker_done ∧ s1.completion_triggered = false then
      _handle_completion
        { s1 with status_label := "Tooling finished. Command center unlocking..." }
    else s1

/-! Helper lemmas about the string model. -/

theorem char_toNat_ofNat (n : Nat) (h : n.isValidChar) :
    (Char.ofNat n).toNat = n := by
  simp only [Char.ofNat, dif_pos h, Char.ofNatAux, Char.toNat]
  have hlt : n < 1114112 := by
    rcases h with h1 | ⟨h2, h3⟩ <;> omega
  simp [UInt32.toNat]

theorem lowerChar_idem (c : Char) : lowerChar (lowerChar c) = lowerChar c := by
  unfold lowerChar
  by_cases h : (65 <= c.toNat && c.toNat <= 90) = true
  · rw [if_pos h]
    have h1 : 65 ≤ c.toNat := by simpa using ((Bool.and_eq_true _ _).mp h).1
    have h2 : c.toNat ≤ 90 := by simpa using ((Bool.and_eq_true _ _).mp h).2
    have hv : (c.toNat + 32).isValidChar := by left; omega
    have ht : (Char.ofNat (c.toNat + 32)).toNat = c.toNat + 32 :=
      char_toNat_ofNat _ hv
    rw [ht, if_neg]
    simp only [Bool.and_eq_true, decide_eq_true_eq, not_and]
    omega
  · rw [if_neg h, if_neg h]

theorem pyLower_idem (s : String) : pyLower (pyLower s) = pyLower s := by
  unfold pyLower
  simp only [List.map_map]
  congr 1
  apply List.map_congr_left
  intro c _
  exact lowerChar_idem c

/-- For a non-empty status string, `_apply_stage_state` classifies the
lower-cased status through `_check_state_for_status`. -/
theorem apply_stage_state_checkState (t s : String) (ms : List String)
    (h : s ≠ "") :
    (_apply_stage_state t (some s) ms).1.checkState
      = _check_state_for_status (pyLower s) := by
  simp [_apply_stage_state, status_or_pending, h]

/-- C1, counterexample: the claim classifies by the lower-cased status
alone, so the status `" completed "` (whose lower-cased value is in none
of the enumerated sets and is non-empty) should map to the indeterminate
`PartiallyChecked` state; the code strips whitespace as well and returns
`Checked`. -/
theorem C1_counterexample :
    (_apply_stage_state "T" (some " completed ") []).1.checkState
        = CheckState.Checked
    ∧ pyLower " completed " ∉ DONE_STATUSES
    ∧ pyLower " completed " ≠ "running"
    ∧ pyLower " completed " ≠ "pending"
    ∧ " completed " ≠ ""
    ∧ CheckState.Checked ≠ CheckState.PartiallyChecked := by
  refine ⟨by decide, by decide, by decide, by decide, by decide, by decide⟩

/-- C1 (amended): for every non-empty status string, classification is by
the lower-cased and whitespace-stripped status: a stripped value in
`{completed, attention, blocked}` yields `Checked` (done), `"running"`
yields `PartiallyChecked` (in-progress), `"pending"` yields `Unchecked`
(not started), and any other value yields the indeterminate
`PartiallyChecked` state. -/
theorem C1_check_state_classification (t s : String) (ms : List String)
    (h : s ≠ "") :
    (pyStrip (pyLower s) ∈ DONE_STATUSES →
      (_apply_stage_state t (some s) ms).1.checkState = CheckState.Checked)
    ∧ (pyStrip (pyLower s) = "running" →
      (_apply_stage_state t (some s) ms).1.checkState
        = CheckState.PartiallyChecked)
    ∧ (pyStrip (pyLower s) = "pending" →
      (_apply_stage_state t (some s) ms).1.checkState = CheckState.Unchecked)
    ∧ (pyStrip (pyLower s) ∉ DONE_STATUSES → pyStrip (pyLower s) ≠ "running" →
      pyStrip (pyLower s) ≠ "pending" →
      (_apply_stage_state t (some s) ms).1.checkState
        = CheckState.PartiallyChecked) := by
  rw [apply_stage_state_checkState t s ms h]
  unfold _check_state_for_status
  rw [pyLower_idem]
  refine ⟨fun hd => ?_, fun hr => ?_, fun hp => ?_, fun hnd hnr hnp => ?_⟩
  · rw [if_pos hd]
  · rw [if_neg (by rw [hr]; decide), if_pos hr]
  · rw [if_neg (by rw [hp]; decide), if_neg (by rw [hp]; decide), if_pos hp]
  · rw [if_neg hnd, if_neg hnr, if_neg hnp]

theorem C1_check_state_classification_witness :
    ("Completed" ≠ "" ∧ pyStrip (pyLower "Completed") ∈ DONE_STATUSES)
    ∧ (_apply_stage_state "T" (some "Completed") []).1.checkState
        = CheckState.Checked :=
  ⟨⟨by decide, by decide⟩,
    (C1_check_state_classification "T" "Completed" [] (by decide)).1 (by decide)⟩

/-- C7: when completion has not yet been triggered, one completion
handles the event (one emit, one timer stop, timer stopped, flag set) and
a second invocation is a no-op leaving the state unchanged. -/
theorem C7_completion_idempotent (s : BoardState)
    (h : s.completion_triggered = false) :
    _handle_completion (_handle_completion s) = _handle_completion s
    ∧ (_handle_completion s).board_completed_emits = s.board_completed_emits + 1
    ∧ (_handle_completion s).timer_stops = s.timer_stops + 1
    ∧ (_handle_completion s).completion_triggered = true
    ∧ (_handle_completion s).timer_active = false := by
  simp [_handle_completion, h]

theorem C7_completion_idempotent_witness :
    (initialState []).completion_triggered = false
    ∧ _handle_completion (_handle_completion (initialState []))
        = _handle_completion (initialState [])
    ∧ (_handle_completion (initialState [])).board_completed_emits = 1
    ∧ (_handle_completion (initialState [])).timer_stops = 1 :=
  ⟨rfl, (C7_completion_idempotent (initialState []) rfl).1, by decide, by decide⟩

/-- The loop of `_message_suffix` finds the first message of the already
reversed list whose stripped text is non-blank, returning the stripped
text. -/
theorem firstNonBlank_eq_find (l : List String) :
    firstNonBlank l = (l.find? (fun m => pyStrip m != "")).map pyStrip := by
  induction l with
  | nil => rfl
  | cons m rest ih =>
    by_cases h : pyStrip m = ""
    · simp [firstNonBlank, List.find?, h, ih]
    · have hb : (pyStrip m != "") = true := by simpa using h
      simp [firstNonBlank, List.find?, h, hb]

/-- C8, counterexample: for an empty status string the display text uses
`"pending"`, not the empty status, so the claimed format
`"{t} - {s}( {m})"` fails (under both the trimmed and the raw reading of
the message `m`). -/
theorem C8_counterexample :
    (_apply_stage_state "T" (some "") ["  hi  "]).1.text = "T - pending (hi)"
    ∧ "T - pending (hi)" ≠ "T - " ++ "" ++ " (hi)"
    ∧ "T - pending (hi)" ≠ "T - " ++ "" ++ " (  hi  )" := by
  refine ⟨by decide, by decide, by decide⟩

/-- C8 (amended): for every non-empty status `s`, the display text is
`"{t} - {s}"` followed by `" ({m})"` where `m` is the trimmed text of the
most recent message that is non-blank after trimming, and by nothing when
every message is blank (an empty status is replaced by `"pending"`,
see C10). -/
theorem C8_display_text (t s : String) (ms : List String) (h : s ≠ "") :
    (_apply_stage_state t (some s) ms).1.text
      = t ++ " - " ++ s ++
        (match ms.reverse.find? (fun m => pyStrip m != "") with
         | some m => " (" ++ pyStrip m ++ ")"
         | none => "") := by
  simp only [_apply_stage_state, status_or_pending, if_neg h, _message_suffix,
    firstNonBlank_eq_find]
  cases ms.reverse.find? (fun m => pyStrip m != "") <;> rfl

theorem C8_display_text_witness :
    ("running" ≠ "" : Prop)
    ∧ (_apply_stage_state "T" (some "running") ["a", " ", "b "]).1.text
        = "T - running (b)" :=
  ⟨by decide, by
    rw [C8_display_text "T" "running" ["a", " ", "b "] (by decide)]
    decide⟩

/-- C10, counterexample: a stage with an empty status but a non-blank
message renders `"{title} - pending (msg)"`, not the bare
`"{title} - pending"` the claim states. -/
theorem C10_counterexample :
    alookup (_update_from_snapshot ⟨fun _ => none, fun _ => none⟩
        (initialState [("b", "Beta")])
        [("b", ⟨none, some "Beta", some "", ["hi"], none⟩)]).items "b"
      = some ⟨"Beta - pending (hi)", CheckState.Unchecked⟩
    ∧ "Beta - pending (hi)" ≠ "Beta - pending" := by
  refine ⟨by decide, by decide⟩

/-- C10 (amended): a stage absent from the snapshot, or present with a
missing/None/empty status, is treated as `"pending"`: the display text is
`"{title} - pending"` followed by the usual message suffix (empty for an
absent stage, whose messages default to `()`), the check state is
`Unchecked`, and the stage counts as not done. -/
theorem C10_missing_status_pending (t : String)
    (stages : List (String × Stage)) (sid : String)
    (h : alookup stages sid = none
       ∨ ∃ stg, alookup stages sid = some stg
           ∧ (stg.status = none ∨ stg.status = some "")) :
    (_apply_stage_state t (stageStatus stages sid)
        (stageMessages stages sid)).1.text
      = t ++ " - pending" ++ _message_suffix (stageMessages stages sid)
    ∧ (_apply_stage_state t (stageStatus stages sid)
        (stageMessages stages sid)).1.checkState = CheckState.Unchecked
    ∧ (_apply_stage_state t (stageStatus stages sid)
        (stageMessages stages sid)).2 = false := by
  have hst : status_or_pending (stageStatus stages sid) = "pending" := by
    rcases h with h | ⟨stg, hs, h2⟩
    · simp [stageStatus, h, status_or_pending]
    · rcases h2 with h2 | h2 <;> simp [stageStatus, hs, h2, status_or_pending]
  refine ⟨?_, ?_, ?_⟩
  · simp only [_apply_stage_state, hst]
    congr 1
    rw [String.append_assoc]
    congr 1
  · simp only [_apply_stage_state, hst]
    decide
  · simp only [_apply_stage_state, hst]
    decide

theorem C10_missing_status_pending_witness :
    (alookup ([] : List (String × Stage)) "x" = none
       ∨ ∃ stg, alookup ([] : List (String × Stage)) "x" = some stg
           ∧ (stg.status = none ∨ stg.status = some ""))
    ∧ (_apply_stage_state "X" (stageStatus [] "x")
        (stageMessages [] "x")).1.text = "X - pending" :=
  ⟨Or.inl rfl, by
    have h := (C10_missing_status_pending "X" [] "x" (Or.inl rfl)).1
    rw [h]
    decide⟩

/-! Association-list lemmas. -/

theorem alookup_append {α : Type} (l1 l2 : List (String × α)) (k : String) :
    alookup (l1 ++ l2) k =
      match alookup l1 k with
      | some v => some v
      | none => alookup l2 k := by
  induction l1 with
  | nil => rfl
  | cons p rest ih =>
    by_cases h : p.1 = k <;> simp [alookup, h, ih]

theorem alookup_mem {α : Type} (l : List (String × α)) (k : String) (v : α)
    (h : alookup l k = some v) : (k, v) ∈ l := by
  induction l with
  | nil => cases h
  | cons p rest ih =>
    by_cases hk : p.1 = k
    · simp only [alookup, if_pos hk] at h
      have : p = (k, v) := by
        cases p
        cases h
        cases hk
        rfl
      rw [← this]
      exact List.mem_cons_self p rest
    · simp only [alookup, if_neg hk] at h
      exact List.mem_cons_of_mem _ (ih h)

theorem alookup_setItem_isSome (l : List (String × Item)) (k k2 : String)
    (v : Item) :
    (alookup (setItem l k v) k2).isSome = (alookup l k2).isSome := by
  induction l with
  | nil => rfl
  | cons p rest ih =>
    show (alookup ((if p.1 = k then (k, v) else p) :: setItem rest k v) k2).isSome
      = _
    by_cases h : p.1 = k
    · rw [if_pos h]
      by_cases h2 : p.1 = k2
      · have hk2 : k = k2 := h ▸ h2
        simp [alookup, hk2, h2]
      · have hk2 : ¬k = k2 := fun hh => h2 (h.trans hh)
        simp [alookup, hk2, h2, ih]
    · rw [if_neg h]
      by_cases h2 : p.1 = k2
      · simp [alookup, h2]
      · simp [alookup, h2, ih]

/-! Structural lemmas about the stage-merge and apply loops. -/

theorem mergeStep_items_isSome (st : BoardState) (p : String × Stage)
    (k : String) (h : (alookup st.items k).isSome = true) :
    (alookup (mergeStep st p).items k).isSome = true := by
  unfold mergeStep
  split
  · exact h
  · obtain ⟨v, hv⟩ := Option.isSome_iff_exists.mp h
    simp only
    rw [alookup_append, hv]
    rfl

theorem mergeStep_adds (st : BoardState) (p : String × Stage) :
    (alookup (mergeStep st p).items p.1).isSome = true := by
  unfold mergeStep
  split
  · assumption
  · rename_i hnone
    have hn : alookup st.items p.1 = none := by
      cases hc : alookup st.items p.1 with
      | none => rfl
      | some v => rw [hc] at hnone; simp at hnone
    simp only
    rw [alookup_append, hn]
    simp [alookup]

theorem mergeStep_completion (st : BoardState) (p : String × Stage) :
    (mergeStep st p).completion_triggered = st.completion_triggered := by
  unfold mergeStep
  split <;> rfl

theorem mergeNewStages_items_isSome (stages : List (String × Stage))
    (st : BoardState) (k : String)
    (h : (alookup st.items k).isSome = true) :
    (alookup (mergeNewStages st stages).items k).isSome = true := by
  induction stages generalizing st with
  | nil => exact h
  | cons q rest ih =>
    exact ih (mergeStep st q) (mergeStep_items_isSome st q k h)

theorem mergeNewStages_adds_mem (p : String × Stage) :
    ∀ (stages : List (String × Stage)) (st : BoardState), p ∈ stages →
      (alookup (mergeNewStages st stages).items p.1).isSome = true := by
  intro stages
  induction stages with
  | nil =>
    intro st hm
    cases hm
  | cons q rest ih =>
    intro st hm
    rcases List.mem_cons.mp hm with hq | hq
    · subst hq
      exact mergeNewStages_items_isSome rest (mergeStep st p) p.1
        (mergeStep_adds st p)
    · exact ih (mergeStep st q) hq

theorem mergeNewStages_adds (stages : List (String × Stage)) (st : BoardState)
    (k : String) (h : (alookup stages k).isSome = true) :
    (alookup (mergeNewStages st stages).items k).isSome = true := by
  obtain ⟨v, hv⟩ := Option.isSome_iff_exists.mp h
  exact mergeNewStages_adds_mem (k, v) stages st (alookup_mem stages k v hv)

theorem mergeNewStages_completion (stages : List (String × Stage))
    (st : BoardState) :
    (mergeNewStages st stages).completion_triggered = st.completion_triggered := by
  induction stages generalizing st with
  | nil => rfl
  | cons q rest ih =>
    rw [show mergeNewStages st (q :: rest) = mergeNewStages (mergeStep st q) rest
      from rfl, ih, mergeStep_completion]

theorem applyStep_fst (stages : List (String × Stage)) (acc : BoardState × Bool)
    (d : String × String) :
    (applyStep stages acc d).1
      = { acc.1 with items := (applyStep stages acc d).1.items } := by
  unfold applyStep
  split <;> rfl

theorem applyFold_fst (stages : List (String × Stage))
    (defs : List (String × String)) (acc : BoardState × Bool) :
    (defs.foldl (applyStep stages) acc).1
      = { acc.1 with items := (defs.foldl (applyStep stages) acc).1.items } := by
  induction defs generalizing acc with
  | nil => rfl
  | cons d rest ih =>
    rw [List.foldl_cons]
    have h1 := ih (applyStep stages acc d)
    have h2 := applyStep_fst stages acc d
    rw [h1, h2]

theorem applyStep_items_isSome (stages : List (String × Stage))
    (acc : BoardState × Bool) (d : String × String) (k : String) :
    (alookup (applyStep stages acc d).1.items k).isSome
      = (alookup acc.1.items k).isSome := by
  unfold applyStep
  split
  · rfl
  · exact alookup_setItem_isSome acc.1.items d.1 k _

theorem applyFold_items_isSome (stages : List (String × Stage))
    (defs : List (String × String)) (acc : BoardState × Bool) (k : String) :
    (alookup (defs.foldl (applyStep stages) acc).1.items k).isSome
      = (alookup acc.1.items k).isSome := by
  induction defs generalizing acc with
  | nil => rfl
  | cons d rest ih =>
    rw [List.foldl_cons, ih (applyStep stages acc d),
      applyStep_items_isSome stages acc d k]

/-- The per-stage "is done" test folded into `all_done`. -/
def stageDone (stages : List (String × Stage)) (d : String × String) : Bool :=
  decide (pyLower (status_or_pending (stageStatus stages d.1)) ∈ DONE_STATUSES)

theorem applyFold_flag (stages : List (String × Stage))
    (defs : List (String × String)) (acc : BoardState × Bool)
    (hcov : ∀ d ∈ defs, (alookup acc.1.items d.1).isSome = true) :
    (defs.foldl (applyStep stages) acc).2
      = (acc.2 && defs.all (stageDone stages)) := by
  induction defs generalizing acc with
  | nil => simp
  | cons d rest ih =>
    have hd := hcov d (List.mem_cons_self d rest)
    obtain ⟨it, hit⟩ := Option.isSome_iff_exists.mp hd
    rw [List.foldl_cons]
    have hstep : applyStep stages acc d
        = ({ acc.1 with
              items := setItem acc.1.items d.1
                (_apply_stage_state d.2 (stageStatus stages d.1)
                  (stageMessages stages d.1)).1 },
           acc.2 && stageDone stages d) := by
      unfold applyStep
      rw [hit]
      rfl
    rw [hstep, ih]
    · simp [Bool.and_assoc]
    · intro d2 hd2
      have := hcov d2 (List.mem_cons_of_mem d hd2)
      rw [← this]
      exact alookup_setItem_isSome acc.1.items d.1 d2.1 _

theorem applyAll_flag (s : BoardState) (stages : List (String × Stage))
    (hcov : ∀ d ∈ s.stage_definitions, (alookup s.items d.1).isSome = true) :
    (applyAll s stages).2 = s.stage_definitions.all (stageDone stages) := by
  unfold applyAll
  rw [applyFold_flag stages s.stage_definitions (s, true) hcov]
  simp

/-! The snapshot update. -/

theorem update_items (fs : FS) (s : BoardState) (raw : List (String × Stage)) :
    (_update_from_snapshot fs s raw).items
      = (applyAll (mergeNewStages s (buildStagesDict raw))
          (buildStagesDict raw)).1.items := by
  simp only [_update_from_snapshot]
  split
  · split <;> rfl
  · rfl

theorem update_completion (fs : FS) (s : BoardState)
    (raw : List (String × Stage)) :
    (_update_from_snapshot fs s raw).completion_triggered
      = s.completion_triggered := by
  have h1 : (applyAll (mergeNewStages s (buildStagesDict raw))
      (buildStagesDict raw)).1.completion_triggered = s.completion_triggered := by
    unfold applyAll
    rw [applyFold_fst]
    exact mergeNewStages_completion _ s
  simp only [_update_from_snapshot]
  split
  · split <;> simpa using h1
  · simpa using h1

theorem update_label (fs : FS) (s : BoardState) (raw : List (String × Stage))
    (h1 : buildStagesDict raw ≠ []) (h2 : s.completion_triggered = false) :
    (_update_from_snapshot fs s raw).status_label
      = (if (applyAll (mergeNewStages s (buildStagesDict raw))
            (buildStagesDict raw)).2
         then "All stages reported. Waiting for tooling shutdown..."
         else "Tracking orchestration stages...") := by
  have hc : (applyAll (mergeNewStages s (buildStagesDict raw))
      (buildStagesDict raw)).1.completion_triggered = false := by
    unfold applyAll
    rw [applyFold_fst]
    simpa [mergeNewStages_completion] using h2
  simp only [_update_from_snapshot]
  split
  · split
    · rename_i hdone
      simp [hdone]
    · rename_i hdone
      simp [hdone]
  · rename_i hcond
    exact absurd ⟨h1, hc⟩ hcond

/-- C2: with every definition backed by an item (which construction and
merging guarantee), the `all_done` flag is true exactly when every
tracked stage's lower-cased effective status is a done-status, and for a
non-empty snapshot processed before completion this flag selects the
banner: "All stages reported..." versus "Tracking orchestration
stages...". -/
theorem C2_all_done_flag (fs : FS) (s : BoardState)
    (raw : List (String × Stage))
    (hcov : ∀ d ∈ (mergeNewStages s (buildStagesDict raw)).stage_definitions,
      (alookup (mergeNewStages s (buildStagesDict raw)).items d.1).isSome
        = true) :
    ((applyAll (mergeNewStages s (buildStagesDict raw))
        (buildStagesDict raw)).2 = true ↔
      ∀ d ∈ (mergeNewStages s (buildStagesDict raw)).stage_definitions,
        pyLower (status_or_pending (stageStatus (buildStagesDict raw) d.1))
          ∈ DONE_STATUSES)
    ∧ (buildStagesDict raw ≠ [] → s.completion_triggered = false →
      (_update_from_snapshot fs s raw).status_label
        = (if (applyAll (mergeNewStages s (buildStagesDict raw))
              (buildStagesDict raw)).2
           then "All stages reported. Waiting for tooling shutdown..."
           else "Tracking orchestration stages...")) := by
  constructor
  · rw [applyAll_flag _ _ hcov]
    simp [List.all_eq_true, stageDone]
  · intro h1 h2
    exact update_label fs s raw h1 h2

theorem C2_all_done_flag_witness :
    (applyAll
        (mergeNewStages (initialState [("alpha", "Alpha"), ("beta", "Beta")])
          (buildStagesDict
            [("alpha", ⟨none, some "Alpha", some "pending", [], none⟩),
             ("beta", ⟨none, some "Beta", some "pending", [], none⟩)]))
        (buildStagesDict
          [("alpha", ⟨none, some "Alpha", some "pending", [], none⟩),
           ("beta", ⟨none, some "Beta", some "pending", [], none⟩)])).2 = false
    ∧ (_update_from_snapshot ⟨fun _ => none, fun _ => none⟩
        (initialState [("alpha", "Alpha"), ("beta", "Beta")])
        [("alpha", ⟨none, some "Alpha", some "pending", [], none⟩),
         ("beta", ⟨none, some "Beta", some "pending", [], none⟩)]).status_label
        = "Tracking orchestration stages..."
    ∧ (_update_from_snapshot ⟨fun _ => none, fun _ => none⟩
        (initialState [("alpha", "Alpha"), ("beta", "Beta")])
        [("alpha", ⟨none, some "Alpha", some "pending", [], none⟩),
         ("beta", ⟨none, some "Beta", some "pending", [], none⟩)]).items
        = [("alpha", ⟨"Alpha - pending", CheckState.Unchecked⟩),
           ("beta", ⟨"Beta - pending", CheckState.Unchecked⟩)] := by
  have h := C2_all_done_flag ⟨fun _ => none, fun _ => none⟩
    (initialState [("alpha", "Alpha"), ("beta", "Beta")])
    [("alpha", ⟨none, some "Alpha", some "pending", [], none⟩),
     ("beta", ⟨none, some "Beta", some "pending", [], none⟩)]
    (by decide)
  refine ⟨by decide, ?_, by decide⟩
  rw [h.2 (by decide) rfl]
  decide

/-! C5: the checklist mapping only ever grows. -/

theorem update_items_isSome_mono (fs : FS) (s : BoardState)
    (raw : List (String × Stage)) (k : String)
    (h : (alookup s.items k).isSome = true) :
    (alookup (_update_from_snapshot fs s raw).items k).isSome = true := by
  rw [update_items]
  unfold applyAll
  rw [applyFold_items_isSome]
  exact mergeNewStages_items_isSome _ s k h

theorem update_items_isSome_of_stage (fs : FS) (s : BoardState)
    (raw : List (String × Stage)) (k : String)
    (h : (alookup (buildStagesDict raw) k).isSome = true) :
    (alookup (_update_from_snapshot fs s raw).items k).isSome = true := by
  rw [update_items]
  unfold applyAll
  rw [applyFold_items_isSome]
  exact mergeNewStages_adds _ s k h

/-- C5: over any sequence of polls, a stage id present in the item mapping
at the start, or appearing (as effective id) in any polled snapshot, has
an item in the final mapping: updates add newly discovered ids and never
remove an existing one. -/
theorem C5_items_superset (fs : FS) (s : BoardState)
    (snaps : List (List (String × Stage))) (k : String)
    (h : (alookup s.items k).isSome = true
       ∨ ∃ raw, raw ∈ snaps ∧ (alookup (buildStagesDict raw) k).isSome = true) :
    (alookup (snaps.foldl (_update_from_snapshot fs) s).items k).isSome
      = true := by
  induction snaps generalizing s with
  | nil =>
    rcases h with h | ⟨raw, hraw, _⟩
    · exact h
    · cases hraw
  | cons raw rest ih =>
    rw [List.foldl_cons]
    rcases h with h | ⟨r, hr, hk⟩
    · exact ih _ (Or.inl (update_items_isSome_mono fs s raw k h))
    · rcases List.mem_cons.mp hr with hq | hq
      · subst hq
        exact ih _ (Or.inl (update_items_isSome_of_stage fs s r k hk))
      · exact ih _ (Or.inr ⟨r, hq, hk⟩)

theorem C5_items_superset_witness :
    ((alookup (initialState [("a", "A")]).items "g").isSome = true
       ∨ ∃ raw, raw ∈ [[(("g" : String),
            (⟨none, some "Gamma", some "running", [], none⟩ : Stage))], []]
           ∧ (alookup (buildStagesDict raw) "g").isSome = true)
    ∧ (alookup ([[(("g" : String),
          (⟨none, some "Gamma", some "running", [], none⟩ : Stage))], []].foldl
            (_update_from_snapshot ⟨fun _ => none, fun _ => none⟩)
            (initialState [("a", "A")])).items "g").isSome = true := by
  constructor
  · right
    exact ⟨_, List.mem_cons_self _ _, by decide⟩
  · exact C5_items_superset ⟨fun _ => none, fun _ => none⟩
      (initialState [("a", "A")])
      [[(("g" : String), (⟨none, some "Gamma", some "running", [], none⟩ : Stage))], []]
      "g" (Or.inr ⟨_, List.mem_cons_self _ _, by decide⟩)

/-! The repo-index cache. -/

theorem alookup_dictRemove_self {α : Type} (l : List (String × α)) (k : String) :
    alookup (dictRemove l k) k = none := by
  induction l with
  | nil => rfl
  | cons p rest ih =>
    by_cases h : p.1 = k
    · simpa [dictRemove, List.filter, h] using ih
    · have hb : (p.1 != k) = true := by simpa using h
      simpa [dictRemove, List.filter, hb, alookup, h] using ih

theorem alookup_filter_none {α : Type} (l : List (String × α))
    (p : String × α → Bool) (k : String) (h : alookup l k = none) :
    alookup (l.filter p) k = none := by
  induction l with
  | nil => rfl
  | cons q rest ih =>
    by_cases hq : q.1 = k
    · simp [alookup, hq] at h
    · simp only [alookup, if_neg hq] at h
      cases hp : p q <;> simp [List.filter, hp, alookup, hq, ih h]

/-- C3, counterexample: with a cached entry of modification time 1, a file
now of modification time 2 whose contents fail to parse, the load returns
`none` ("no data"), but the refresh then evicts the previously cached
entry instead of letting it persist. -/
theorem C3_counterexample :
    alookup [("s1", (⟨"idx", 1, []⟩ : CacheEntry))] "s1" = some ⟨"idx", 1, []⟩
    ∧ _load_repo_index_payload
        ⟨fun p => if p = "idx" then some ⟨2⟩ else none, fun _ => none⟩
        [("s1", ⟨"idx", 1, []⟩)] "s1" (some "idx") = none
    ∧ alookup
        (_refresh_stage_repo_details
          ⟨fun p => if p = "idx" then some ⟨2⟩ else none, fun _ => none⟩
          [("s1", ⟨"idx", 1, []⟩)]
          [("s1", ⟨none, none, none, [], some "idx"⟩)]) "s1" = none := by
  refine ⟨rfl, rfl, rfl⟩

/-- C3 (amended): when the stat succeeds but the contents fail to parse
(the modification time differing from the cached one, so a read is
attempted at all), the load itself returns "no data" without touching the
cache, and the refresh loop then evicts the stage's previously cached
entry: the old value does not persist. -/
theorem C3_parse_failure_evicts (stat : String → Option FileStat)
    (read : String → Option (List (String × JValue)))
    (cache : List (String × CacheEntry)) (sid ip : String) (st : FileStat)
    (cached : CacheEntry) (stg : Stage)
    (hip : ip ≠ "") (hstat : stat ip = some st) (hread : read ip = none)
    (hc : alookup cache sid = some cached) (hm : cached.mtime ≠ st.st_mtime)
    (hstg : stg.repo_progress_index_path = some ip) :
    _load_repo_index_payload ⟨stat, read⟩ cache sid (some ip) = none
    ∧ alookup (_refresh_stage_repo_details ⟨stat, read⟩ cache [(sid, stg)]) sid
        = none := by
  have hload :
      _load_repo_index_payload ⟨stat, read⟩ cache sid (some ip) = none := by
    simp [_load_repo_index_payload, hip, hstat, hc, hm, _read_and_normalize,
      hread]
  refine ⟨hload, ?_⟩
  have hstep : _refresh_stage_repo_details ⟨stat, read⟩ cache [(sid, stg)]
      = _prune_stale_repo_cache (dictRemove cache sid) [sid] := by
    simp [_refresh_stage_repo_details, refreshStep, hstg, hload]
  rw [hstep]
  exact alookup_filter_none _ _ _ (alookup_dictRemove_self cache sid)

theorem C3_parse_failure_evicts_witness :
    ((fun p => if p = "idx" then some (⟨2⟩ : FileStat) else none) "idx"
        = some ⟨2⟩
      ∧ alookup [("s1", (⟨"idx", 1, []⟩ : CacheEntry))] "s1"
          = some ⟨"idx", 1, []⟩
      ∧ (1 : Nat) ≠ 2)
    ∧ alookup
        (_refresh_stage_repo_details
          ⟨fun p => if p = "idx" then some ⟨2⟩ else none, fun _ => none⟩
          [("s1", ⟨"idx", 1, []⟩)]
          [("s1", ⟨none, none, none, [], some "idx"⟩)]) "s1" = none :=
  ⟨⟨rfl, rfl, by decide⟩,
    (C3_parse_failure_evicts
      (fun p => if p = "idx" then some ⟨2⟩ else none) (fun _ => none)
      [("s1", ⟨"idx", 1, []⟩)] "s1" "idx" ⟨2⟩ ⟨"idx", 1, []⟩
      ⟨none, none, none, [], some "idx"⟩
      (by decide) rfl rfl rfl (by decide) rfl).2⟩

/-- C4: when the stat result's modification time equals the cached one,
the load returns the cached normalized result and is independent of the
file-reading function (no re-read, no re-parse); when it differs, the
load is exactly the re-read-and-re-parse path. -/
theorem C4_mtime_cache (stat : String → Option FileStat)
    (read1 read2 : String → Option (List (String × JValue)))
    (cache : List (String × CacheEntry)) (sid ip : String) (st : FileStat)
    (cached : CacheEntry)
    (hip : ip ≠ "") (hstat : stat ip = some st)
    (hc : alookup cache sid = some cached) :
    (cached.mtime = st.st_mtime →
      _load_repo_index_payload ⟨stat, read1⟩ cache sid (some ip) = some cached
      ∧ _load_repo_index_payload ⟨stat, read1⟩ cache sid (some ip)
          = _load_repo_index_payload ⟨stat, read2⟩ cache sid (some ip))
    ∧ (cached.mtime ≠ st.st_mtime →
      _load_repo_index_payload ⟨stat, read1⟩ cache sid (some ip)
        = _read_and_normalize ⟨stat, read1⟩ ip st) := by
  constructor
  · intro hm
    have h1 : _load_repo_index_payload ⟨stat, read1⟩ cache sid (some ip)
        = some cached := by
      simp [_load_repo_index_payload, hip, hstat, hc, hm]
    have h2 : _load_repo_index_payload ⟨stat, read2⟩ cache sid (some ip)
        = some cached := by
      simp [_load_repo_index_payload, hip, hstat, hc, hm]
    exact ⟨h1, h1.trans h2.symm⟩
  · intro hm
    simp [_load_repo_index_payload, hip, hstat, hc, hm]

theorem C4_mtime_cache_witness :
    ("i" ≠ ""
      ∧ (fun p => if p = "i" then some (⟨7⟩ : FileStat) else none) "i"
          = some ⟨7⟩
      ∧ alookup [("s", (⟨"i", 7, []⟩ : CacheEntry))] "s" = some ⟨"i", 7, []⟩
      ∧ (⟨"i", 7, []⟩ : CacheEntry).mtime = (⟨7⟩ : FileStat).st_mtime)
    ∧ _load_repo_index_payload
        ⟨fun p => if p = "i" then some ⟨7⟩ else none,
         fun _ => some [("entries", JValue.jlist [])]⟩
        [("s", ⟨"i", 7, []⟩)] "s" (some "i") = some ⟨"i", 7, []⟩
    ∧ _load_repo_index_payload
        ⟨fun p => if p = "i" then some ⟨7⟩ else none,
         fun _ => some [("entries", JValue.jlist [])]⟩
        [("s", ⟨"i", 7, []⟩)] "s" (some "i")
      = _load_repo_index_payload
          ⟨fun p => if p = "i" then some ⟨7⟩ else none, fun _ => none⟩
          [("s", ⟨"i", 7, []⟩)] "s" (some "i") :=
  ⟨⟨by decide, rfl, rfl, rfl⟩,
    ((C4_mtime_cache (fun p => if p = "i" then some ⟨7⟩ else none)
      (fun _ => some [("entries", JValue.jlist [])]) (fun _ => none)
      [("s", ⟨"i", 7, []⟩)] "s" "i" ⟨7⟩ ⟨"i", 7, []⟩
      (by decide) rfl rfl).1 rfl).1,
    ((C4_mtime_cache (fun p => if p = "i" then some ⟨7⟩ else none)
      (fun _ => some [("entries", JValue.jlist [])]) (fun _ => none)
      [("s", ⟨"i", 7, []⟩)] "s" "i" ⟨7⟩ ⟨"i", 7, []⟩
      (by decide) rfl rfl).1 rfl).2⟩

/-- C6: after a refresh from the latest snapshot, every key of the
repo-index cache is a stage id of that snapshot (stale entries are
pruned). -/
theorem C6_cache_keys_observed (fs : FS) (cache : List (String × CacheEntry))
    (stages : List (String × Stage)) (k : String)
    (h : (alookup (_refresh_stage_repo_details fs cache stages) k).isSome
      = true) :
    k ∈ stages.map Prod.fst := by
  obtain ⟨v, hv⟩ := Option.isSome_iff_exists.mp h
  have hm := alookup_mem _ _ _ hv
  unfold _refresh_stage_repo_details _prune_stale_repo_cache at hm
  have hmem := List.mem_filter.mp hm
  simpa using hmem.2

theorem C6_cache_keys_observed_witness :
    (alookup
        (_refresh_stage_repo_details
          ⟨fun p => if p = "i" then some ⟨1⟩ else none,
           fun _ => some [("entries_dir", JValue.jstr "d")]⟩
          [] [("s", ⟨none, none, none, [], some "i"⟩)]) "s").isSome = true
    ∧ "s" ∈ ([("s", (⟨none, none, none, [], some "i"⟩ : Stage))].map Prod.fst) :=
  ⟨rfl,
    C6_cache_keys_observed
      ⟨fun p => if p = "i" then some ⟨1⟩ else none,
       fun _ => some [("entries_dir", JValue.jstr "d")]⟩
      [] [("s", ⟨none, none, none, [], some "i"⟩)] "s" rfl⟩

/-! Repo-entry normalization (C9). -/

theorem toDigitsCore_ne_nil (b fuel n : Nat) (ds : List Char)
    (h : fuel ≠ 0 ∨ ds ≠ []) : Nat.toDigitsCore b fuel n ds ≠ [] := by
  induction fuel generalizing n ds with
  | zero =>
    rcases h with h | h
    · exact absurd rfl h
    · simpa [Nat.toDigitsCore] using h
  | succ f ih =>
    simp only [Nat.toDigitsCore]
    split
    · simp
    · exact ih _ _ (Or.inr (by simp))

theorem nat_repr_ne_empty (n : Nat) : Nat.repr n ≠ "" := by
  unfold Nat.repr
  intro h
  have h2 : Nat.toDigits 10 n = [] := by
    have := congrArg String.data h
    simpa [List.asString] using this
  exact toDigitsCore_ne_nil 10 (n + 1) n [] (Or.inl (by omega))
    (by simpa [Nat.toDigits] using h2)

theorem int_toString_ne_empty (n : Int) : toString n ≠ "" := by
  show Int.repr n ≠ ""
  cases n with
  | ofNat m => exact nat_repr_ne_empty m
  | negSucc m =>
    unfold Int.repr
    intro h
    have := congrArg String.data h
    simp [String.data_append] at this

theorem string_append_ne_empty_left (a b : String) (h : a.data ≠ []) :
    a ++ b ≠ "" := by
  intro hh
  have := congrArg String.data hh
  rw [String.data_append] at this
  simp at this
  exact h this.1

theorem pyStr_ne_empty_of_truthy (v : JValue) (h : v.truthy = true) :
    v.pyStr ≠ "" := by
  cases v with
  | null => cases h
  | jbool b =>
    cases b
    · cases h
    · simp [JValue.pyStr, pyRepr]
  | jnum n =>
    have hn : (JValue.jnum n).pyStr = toString n := by
      show pyRepr (.jnum n) = toString n
      rw [pyRepr]
    rw [hn]
    exact int_toString_ne_empty n
  | jstr s => simpa [JValue.pyStr, JValue.truthy] using h
  | jlist xs =>
    show pyRepr (.jlist xs) ≠ ""
    rw [pyRepr]
    rw [String.append_assoc]
    exact string_append_ne_empty_left _ _ (by decide)
  | jobj kvs =>
    show pyRepr (.jobj kvs) ≠ ""
    rw [pyRepr]
    rw [String.append_assoc]
    exact string_append_ne_empty_left _ _ (by decide)

theorem pyOr_pos (a b : JValue) (h : a.truthy = true) : pyOr a b = a := by
  simp [pyOr, h]

theorem pyOr_neg (a b : JValue) (h : a.truthy = false) : pyOr a b = b := by
  simp [pyOr, h]

theorem filterMap_strip_eq (xs : List JValue) :
    xs.filterMap (fun m =>
        let t := pyStrip m.pyStr
        if t = "" then none else some t)
      = (xs.map (fun m => pyStrip m.pyStr)).filter (fun t => t != "") := by
  induction xs with
  | nil => rfl
  | cons m rest ih =>
    by_cases h : pyStrip m.pyStr = ""
    · simp [List.filterMap_cons, List.filter, h, ih]
    · have hb : (pyStrip m.pyStr != "") = true := by simpa using h
      simp [List.filterMap_cons, List.filter, h, hb, ih]

/-- C9: normalizing any raw entry that is a JSON object always succeeds
and yields: a non-empty display name, falling back to `repo_id` and then
`"<repo>"`; a status falling back to `"pending"` when absent or empty; an
`updated_at` falling back to `""`; messages that are the non-blank
trimmed strings of a list-valued `message_preview` (or the single trimmed
string of a string-valued one); and a `detail_path` resolved under the
entries directory when given as a non-empty string. The entries directory
itself defaults to the index file's own parent directory when the payload
declares none. -/
theorem C9_normalization (kvs : List (String × JValue)) (dir ip : String)
    (payload : List (String × JValue)) :
    (∃ e, _normalize_repo_entry (JValue.jobj kvs) dir = some e
      ∧ e.display_name ≠ ""
      ∧ ((jGet kvs "display_name").truthy = false →
          e.display_name = (if e.repo_id = "" then "<repo>" else e.repo_id))
      ∧ ((jGet kvs "status" = JValue.null ∨ jGet kvs "status" = JValue.jstr "")
          → e.status = "pending")
      ∧ (jGet kvs "updated_at" = JValue.null → e.updated_at = "")
      ∧ (∀ xs, jGet kvs "message_preview" = JValue.jlist xs →
          e.messages
            = (xs.map (fun m => pyStrip m.pyStr)).filter (fun t => t != ""))
      ∧ (∀ ms, jGet kvs "message_preview" = JValue.jstr ms →
          e.messages = (if pyStrip ms = "" then [] else [pyStrip ms]))
      ∧ (∀ p, jGet kvs "detail_path" = JValue.jstr p → p ≠ "" →
          e.detail_path = some (resolveUnder dir p)))
    ∧ (jGet payload "entries_dir" = JValue.null →
        entriesDirFor payload ip = parentDir ip) := by
  constructor
  · refine ⟨_, rfl, ?_, ?_, ?_, ?_, ?_, ?_, ?_⟩
    · show (pyOr (pyOr (jGet kvs "display_name")
          (.jstr (pyOr (jGet kvs "repo_id") (.jstr "")).pyStr))
          (.jstr "<repo>")).pyStr ≠ ""
      by_cases hd : (jGet kvs "display_name").truthy = true
      · rw [pyOr_pos _ _ hd, pyOr_pos _ _ hd]
        exact pyStr_ne_empty_of_truthy _ hd
      · have hdf : (jGet kvs "display_name").truthy = false :=
          Bool.eq_false_iff.mpr hd
        rw [pyOr_neg _ _ hdf]
        by_cases hr : (pyOr (jGet kvs "repo_id") (.jstr "")).pyStr = ""
        · rw [pyOr_neg _ _ (by simp [JValue.truthy, hr])]
          simp [JValue.pyStr]
        · rw [pyOr_pos _ _ (by simpa [JValue.truthy] using hr)]
          simpa [JValue.pyStr] using hr
    · intro hdf
      show (pyOr (pyOr (jGet kvs "display_name")
          (.jstr (pyOr (jGet kvs "repo_id") (.jstr "")).pyStr))
          (.jstr "<repo>")).pyStr = _
      rw [pyOr_neg _ _ hdf]
      by_cases hr : (pyOr (jGet kvs "repo_id") (.jstr "")).pyStr = ""
      · rw [pyOr_neg _ _ (by simp [JValue.truthy, hr]), if_pos hr]
        rfl
      · rw [pyOr_pos _ _ (by simpa [JValue.truthy] using hr), if_neg hr]
        rfl
    · intro hs
      show (pyOr (jGet kvs "status") (.jstr "pending")).pyStr = "pending"
      rcases hs with hs | hs <;>
        rw [hs, pyOr_neg _ _ (by simp [JValue.truthy])] <;> rfl
    · intro hu
      show (pyOr (jGet kvs "updated_at") (.jstr "")).pyStr = ""
      rw [hu, pyOr_neg _ _ (by simp [JValue.truthy])]
      rfl
    · intro xs hxs
      show _normalized_messages (jGet kvs "message_preview") = _
      rw [hxs]
      exact filterMap_strip_eq xs
    · intro ms hms
      show _normalized_messages (jGet kvs "message_preview") = _
      rw [hms]
      rfl
    · intro p hp hne
      show (match jGet kvs "detail_path" with
            | JValue.jstr s =>
              if s = "" then none else some (resolveUnder dir s)
            | _ => none) = some (resolveUnder dir p)
      rw [hp]
      simp [hne]
  · intro h
    simp [entriesDirFor, h, pyOr, JValue.truthy, JValue.pyStr]

theorem C9_normalization_witness :
    _normalize_repo_entry
        (JValue.jobj [("status", JValue.jstr ""),
          ("message_preview", JValue.jstr " hi ")]) "d"
      = some ⟨"", "<repo>", "pending", "", ["hi"], none⟩
    ∧ (∃ e, _normalize_repo_entry
          (JValue.jobj [("status", JValue.jstr ""),
            ("message_preview", JValue.jstr " hi ")]) "d" = some e
        ∧ e.status = "pending" ∧ e.display_name ≠ "") := by
  refine ⟨rfl, ?_⟩
  obtain ⟨e, he, hne, _, hstatus, _, _, hmsg, _⟩ :=
    (C9_normalization [("status", JValue.jstr ""),
      ("message_preview", JValue.jstr " hi ")] "d" "i" []).1
  exact ⟨e, he, hstatus (Or.inr rfl), hne⟩

end ProgressBoard
